import Mathlib

/-!
Verification of the geometry quality engine of the `geoqa` repository
(`src/geoqa/geometry.py`, with the dominant-type helper from
`src/geoqa/spatial.py`) against its natural-language specification.

The Python code operates on a GeoDataFrame whose geometry column holds
shapely geometry objects or `None`.  We embed this shallowly:

* a geometry is a record of the observable shapely attributes the engine
  reads (`geom_type`, `is_empty`, `is_valid`, `wkb`, `area`, `length`);
  attributes that may raise in shapely (`wkb`, `area`, `length`) are
  `Option`-valued, `none` modelling the raised exception;
* a GeoDataFrame (Geometry Store) is a `List (Option Geom)` with `none`
  for a null geometry slot; the frames under test use the default
  RangeIndex, so row labels coincide with positions and indices are
  modelled as positions `0, 1, ...`;
* external shapely operations that the engine merely delegates to
  (`intersection`, `make_valid`, `explain_validity`) are parameters of
  the embedded functions;
* numeric values (`area`, `length`, `np.pi`) are modelled as exact
  rationals.
-/

namespace GeoQA

/-- Observable attributes of a shapely geometry object, as read by the
engine.  `wkb`, `area` and `length` are `Option`-valued: `none` models the
attribute access raising an exception (caught by the engine's `try` blocks
in `geometry.py`). -/
structure Geom where
  geomType : String
  isEmpty : Bool
  isValid : Bool
  wkb : Option (List Nat)
  area : Option ℚ
  length : Option ℚ
deriving DecidableEq

/-- A Geometry Store: the geometry column of a GeoDataFrame, in row order.
`none` is a null (Python `None`) geometry slot. -/
abbrev Store : Type := List (Option Geom)

/-- Boolean substring test on character lists; `charsPrefixOf n h` is true
iff `n` is a prefix of `h`.  Models Python's `in` operator on strings. -/
def charsPrefixOf : List Char → List Char → Bool
  | [], _ => true
  | _ :: _, [] => false
  | a :: as, b :: bs => a == b && charsPrefixOf as bs

/-- Predicate `charsContains n h` is true iff `n` occurs as a contiguous substring of
`h`.  Models Python's `needle in haystack` on strings. -/
def charsContains (needle : List Char) : List Char → Bool
  | [] => charsPrefixOf needle []
  | h :: t => charsPrefixOf needle (h :: t) || charsContains needle t

/-- Python `needle in hay` for strings. -/
def strContainsSub (needle hay : String) : Bool :=
  charsContains needle.toList hay.toList

/-! ## Duplicate detector (`GeometryChecker.check_duplicates`)

The Python code encodes each geometry with
`lambda g: g.wkb if g is not None and not g.is_empty else None`,
then uses pandas `Series.duplicated`.  An encoded value is therefore either
a byte string or Python `None`; we model it as `Option (List Nat)` with
`none` for Python `None`.  pandas `duplicated` treats two `None` values as
equal.  If `g.wkb` raises for any row, the whole `Series.apply` raises and
the surrounding `except` returns the fallback `{0, []}`. -/

/-- An encoded geometry value as stored in the pandas series `wkb_values`:
`none` is Python `None` (the sentinel for null/empty), `some b` a WKB byte
string. -/
abbrev Enc : Type := Option (List Nat)

/-- The per-row encoding lambda of `check_duplicates`:
`g.wkb if g is not None and not g.is_empty else None`.  The outer `Option`
models the lambda raising (when `g.wkb` raises). -/
def encodeG : Option Geom → Option Enc
  | none => some none
  | some g => if g.isEmpty then some none else (g.wkb).map some

/-- The `Series.apply` over the geometry column: encodes every row, raising
(returning `none`) as soon as the lambda raises for some row. -/
def encodeAll : Store → Option (List Enc)
  | [] => some []
  | g :: rest =>
    match encodeG g, encodeAll rest with
    | some e, some es => some (e :: es)
    | _, _ => none

/-- Embeds `wkb_values.duplicated(keep="first").sum()`: the number of rows whose
value already occurred at an earlier row.  `seen` accumulates the values of
the rows already passed. -/
def dupCountFirst (seen : List Enc) : List Enc → Nat
  | [] => 0
  | e :: rest => (if e ∈ seen then 1 else 0) + dupCountFirst (e :: seen) rest

/-- Embeds `GeometryChecker.check_duplicates`: returns
`(duplicate_count, duplicate_indices)`.  `duplicated(keep=False)` marks a
row iff its value occurs at least twice in the whole series. -/
def check_duplicates (s : Store) : Nat × List Nat :=
  if s.length = 0 then (0, [])
  else
    match encodeAll s with
    | none => (0, [])
    | some encs =>
      (dupCountFirst [] encs,
       (List.range s.length).filter fun i => decide (2 ≤ encs.count (encs.getD i none)))

/-- True iff the feature is a null slot or an empty geometry: exactly the
features the encoding lambda sends to the Python `None` sentinel. -/
def isNullOrEmptyB : Option Geom → Bool
  | none => true
  | some g => g.isEmpty

/-- Number of null-or-empty features of the store. -/
def nullEmptyCount (s : Store) : Nat :=
  (List.filter isNullOrEmptyB s).length

/-- Specification-side count of rows that are not the first occurrence in
their equality class of encoded values. -/
def nonFirstB (l : List Enc) (i : Nat) : Bool :=
  (List.range i).any fun j => decide (l.getD j none = l.getD i none)

/-- Number of rows that are not the first occurrence within their equality
class (a class of size k contributes k − 1). -/
def specNonFirst (l : List Enc) : Nat :=
  ((List.range l.length).filter (nonFirstB l)).length

/-! Helper lemmas about the duplicate machinery. -/

theorem encodeAll_cons {g : Option Geom} {rest : Store} {es : List Enc}
    (h : encodeAll (g :: rest) = some es) :
    ∃ e es2, encodeG g = some e ∧ encodeAll rest = some es2 ∧ es = e :: es2 := by
  cases he : encodeG g with
  | none => simp [encodeAll, he] at h
  | some e =>
    cases hr : encodeAll rest with
    | none => simp [encodeAll, he, hr] at h
    | some es2 =>
      simp only [encodeAll, he, hr] at h
      exact ⟨e, es2, rfl, rfl, (Option.some_inj.mp h).symm⟩

theorem encodeAll_length {s : Store} {es : List Enc} (h : encodeAll s = some es) :
    es.length = s.length := by
  induction s generalizing es with
  | nil => injection h with h; subst h; rfl
  | cons g rest ih =>
    obtain ⟨e, es2, _, hr, hes⟩ := encodeAll_cons h
    subst hes
    simp [ih hr]

theorem encodeAll_getD {s : Store} {es : List Enc} (h : encodeAll s = some es) :
    ∀ i, i < s.length → encodeG (s.getD i none) = some (es.getD i none) := by
  induction s generalizing es with
  | nil => intro i hi; simp at hi
  | cons g rest ih =>
    obtain ⟨e, es2, he, hr, hes⟩ := encodeAll_cons h
    subst hes
    intro i hi
    cases i with
    | zero => simpa using he
    | succ n =>
      simp only [List.getD_cons_succ]
      exact ih hr n (by simpa using hi)

theorem encodeAll_count_none {s : Store} {es : List Enc} (h : encodeAll s = some es) :
    es.count (none : Enc) = nullEmptyCount s := by
  induction s generalizing es with
  | nil => injection h with h; subst h; rfl
  | cons g rest ih =>
    obtain ⟨e, es2, he, hr, hes⟩ := encodeAll_cons h
    subst hes
    have hrest := ih hr
    have hnc : nullEmptyCount (g :: rest)
        = (if isNullOrEmptyB g then 1 else 0) + nullEmptyCount rest := by
      simp only [nullEmptyCount, List.filter_cons]
      split
      · simp [Nat.add_comm]
      · simp
    rw [hnc, List.count_cons, hrest]
    cases g with
    | none =>
      simp only [encodeG, Option.some_inj] at he
      subst he
      simp [isNullOrEmptyB]
      omega
    | some geom =>
      cases hemp : geom.isEmpty with
      | true =>
        simp only [encodeG, hemp, if_pos, Option.some_inj] at he
        subst he
        simp [isNullOrEmptyB, hemp]
        omega
      | false =>
        simp only [encodeG, hemp, Bool.false_eq_true, if_false] at he
        obtain ⟨w, hw, hew⟩ := Option.map_eq_some'.mp he
        subst hew
        simp [isNullOrEmptyB, hemp]

theorem nonFirstB_cons_succ (e : Enc) (rest : List Enc) (i : Nat) :
    nonFirstB (e :: rest) (i + 1)
      = (decide (rest.getD i none = e) || nonFirstB rest i) := by
  simp only [nonFirstB, List.range_succ_eq_map, List.any_cons, List.any_map,
    List.getD_cons_succ, List.getD_cons_zero, Function.comp]
  congr 1
  exact decide_eq_decide.mpr eq_comm

theorem dupCountFirst_eq (l : List Enc) : ∀ (seen : List Enc),
    dupCountFirst seen l =
      ((List.range l.length).filter
        fun i => (decide (l.getD i none ∈ seen) || nonFirstB l i)).length := by
  induction l with
  | nil => intro seen; rfl
  | cons e rest ih =>
    intro seen
    have h0 : (decide ((e :: rest).getD 0 none ∈ seen) || nonFirstB (e :: rest) 0)
        = decide (e ∈ seen) := by
      simp [nonFirstB]
    have hmap :
        (List.filter
          (fun i => decide ((e :: rest).getD i none ∈ seen) || nonFirstB (e :: rest) i)
          ((List.range rest.length).map Nat.succ)).length
        = (List.filter
            (fun i => decide (rest.getD i none ∈ (e :: seen)) || nonFirstB rest i)
            (List.range rest.length)).length := by
      rw [List.filter_map]
      simp only [List.length_map]
      congr 1
      apply List.filter_congr
      intro i _
      simp only [Function.comp, List.getD_cons_succ, nonFirstB_cons_succ, List.mem_cons,
        Bool.decide_or]
      rw [Bool.or_left_comm, ← Bool.or_assoc]
    have key :
        (List.filter
          (fun i => decide ((e :: rest).getD i none ∈ seen) || nonFirstB (e :: rest) i)
          (List.range (rest.length + 1))).length
        = (if e ∈ seen then 1 else 0)
          + (List.filter
              (fun i => decide (rest.getD i none ∈ (e :: seen)) || nonFirstB rest i)
              (List.range rest.length)).length := by
      rw [List.range_succ_eq_map]
      simp only [List.filter_cons, h0]
      by_cases hmem : e ∈ seen
      · rw [if_pos (by simp [hmem]), if_pos hmem, List.length_cons, hmap]
        omega
      · rw [if_neg (by simp [hmem]), if_neg hmem, hmap]
        omega
    simp only [dupCountFirst, List.length_cons, key, ih (e :: seen)]

theorem dupCountFirst_eq_specNonFirst (l : List Enc) :
    dupCountFirst [] l = specNonFirst l := by
  rw [dupCountFirst_eq l []]
  simp only [specNonFirst]
  congr 1

theorem dupCountFirst_pos_of_seen {v : Enc} :
    ∀ (l seen : List Enc), v ∈ seen → 1 ≤ l.count v → 1 ≤ dupCountFirst seen l := by
  intro l
  induction l with
  | nil => intro seen _ hc; simp at hc
  | cons x xs ih =>
    intro seen hv hc
    by_cases hx : x ∈ seen
    · simp [dupCountFirst, hx]
    · have hxv : v ≠ x := by
        intro h
        exact hx (h ▸ hv)
      rw [List.count_cons_of_ne hxv] at hc
      have := ih (x :: seen) (List.mem_cons_of_mem x hv) hc
      simp only [dupCountFirst]
      omega

theorem dupCountFirst_pos_of_two {v : Enc} :
    ∀ (l seen : List Enc), 2 ≤ l.count v → 1 ≤ dupCountFirst seen l := by
  intro l
  induction l with
  | nil => intro seen hc; simp at hc
  | cons x xs ih =>
    intro seen hc
    by_cases hx : x ∈ seen
    · simp [dupCountFirst, hx]
    · by_cases hxv : v = x
      · subst hxv
        rw [List.count_cons_self] at hc
        have hc2 : 1 ≤ xs.count v := by omega
        have := dupCountFirst_pos_of_seen xs (v :: seen) (List.mem_cons_self v seen) hc2
        simp only [dupCountFirst]
        omega
      · rw [List.count_cons_of_ne hxv] at hc
        have := ih (x :: seen) hc
        simp only [dupCountFirst]
        omega

/-! ## Sample geometries for concrete witnesses and counterexamples.

They mirror the fixtures of `tests/conftest.py` and `tests/test_topology.py`:
unit squares, a self-intersecting bowtie, a thin sliver, empty and
encoding-faulting geometries. -/

/-- A valid unit-square polygon. -/
def sqG : Geom := ⟨"Polygon", false, true, some [1], some 1, some 4⟩

/-- A second valid square, disjoint from `sqG`. -/
def sqG2 : Geom := ⟨"Polygon", false, true, some [2], some 1, some 4⟩

/-- A self-intersecting (invalid) bowtie polygon. -/
def bowtieG : Geom := ⟨"Polygon", false, false, some [3], some 2, some 12⟩

/-- A valid point. -/
def pointG : Geom := ⟨"Point", false, true, some [4], some 0, some 0⟩

/-- An empty point (non-null, `is_empty`). -/
def emptyPointG : Geom := ⟨"Point", true, true, some [10], some 0, some 0⟩

/-- An empty polygon (non-null, `is_empty`); its WKB differs from
`emptyPointG`'s. -/
def emptyPolyG : Geom := ⟨"Polygon", true, true, some [11], some 0, some 0⟩

/-- A geometry whose WKB encoding raises. -/
def faultG : Geom := ⟨"Polygon", false, true, none, some 1, some 4⟩

/-- A thin sliver polygon (10 × 0.001 rectangle, as in the tests). -/
def sliverG : Geom := ⟨"Polygon", false, true, some [5], some (1/100), some (20002/1000)⟩

/-! ## Claim C2 — null/empty geometries in duplicate detection.

The claim says null and empty geometries are incomparable and never counted
or listed.  In the code they are all encoded to the Python `None` sentinel,
and pandas `duplicated` treats `None` values as equal to each other: two
null geometries are reported as duplicates of each other. -/

/-- Counterexample to C2: a store of two null geometries.  The code reports
`duplicate_count = 1` and lists both null features in `duplicate_indices`,
although the claim says a null feature is never counted nor listed. -/
theorem C2_counterexample :
    check_duplicates [none, none] = (1, [0, 1]) := by decide

/-- C2 (amended): null and empty geometries all receive one common sentinel
encoding, so a null-or-empty feature never matches any non-null, non-empty
feature, but null-or-empty features match each other: such a feature is
listed in `duplicate_indices` iff the store holds at least two
null-or-empty features, in which case `duplicate_count` is positive. -/
theorem C2_null_empty_sentinel (s : Store) (encs : List Enc) (i : Nat)
    (henc : encodeAll s = some encs) (hi : i < s.length)
    (hne : isNullOrEmptyB (s.getD i none) = true) :
    (i ∈ (check_duplicates s).2 ↔ 2 ≤ nullEmptyCount s)
    ∧ (∀ j g, s.getD j none = some g → g.isEmpty = false →
        encs.getD j none ≠ encs.getD i none)
    ∧ (2 ≤ nullEmptyCount s → 1 ≤ (check_duplicates s).1) := by
  have hlen0 : ¬ s.length = 0 := by omega
  have hcd : check_duplicates s
      = (dupCountFirst [] encs,
         (List.range s.length).filter
           fun j => decide (2 ≤ encs.count (encs.getD j none))) := by
    simp [check_duplicates, hlen0, henc]
  have hsent : encs.getD i none = none := by
    have h := encodeAll_getD henc i hi
    cases hg : s.getD i none with
    | none =>
      rw [hg] at h
      simp only [encodeG, Option.some_inj] at h
      exact h.symm
    | some g =>
      rw [hg] at hne
      rw [hg] at h
      simp only [isNullOrEmptyB] at hne
      simp only [encodeG, hne, if_pos, Option.some_inj] at h
      exact h.symm
  have hcount : encs.count (none : Enc) = nullEmptyCount s := encodeAll_count_none henc
  refine ⟨?_, ?_, ?_⟩
  · rw [hcd]
    simp only [List.mem_filter, List.mem_range, decide_eq_true_eq, hsent, hcount]
    constructor
    · exact fun h => h.2
    · exact fun h => ⟨hi, h⟩
  · intro j g hj hemp
    have hjlt : j < s.length := by
      by_contra hge
      rw [List.getD_eq_default _ _ (by omega)] at hj
      exact Option.noConfusion hj
    have h := encodeAll_getD henc j hjlt
    rw [hj] at h
    simp only [encodeG, hemp, Bool.false_eq_true, if_false] at h
    obtain ⟨w, hw, hew⟩ := Option.map_eq_some'.mp h
    rw [hsent, ← hew]
    exact fun hcontra => Option.noConfusion hcontra
  · intro h2
    rw [hcd]
    exact dupCountFirst_pos_of_two encs [] (by rw [hcount]; exact h2)

/-- Witness for the amended C2, on a store holding a null slot, an empty
point and a real square: the null feature at position 0 is listed as a
duplicate (it matches the empty point), and the duplicate count is
positive. -/
theorem C2_null_empty_sentinel_witness :
    0 ∈ (check_duplicates [none, some emptyPointG, some sqG]).2
    ∧ 1 ≤ (check_duplicates [none, some emptyPointG, some sqG]).1 := by
  have h := C2_null_empty_sentinel [none, some emptyPointG, some sqG]
    [none, none, some [1]] 0 (by decide) (by decide) (by decide)
  exact ⟨h.1.mpr (by decide), h.2.2 (by decide)⟩

/-! ## Claim C6 — duplicate equality classes.

The claim describes classes of byte-identical canonical encodings.  The
code compares the *sentinel-encoded* values: all null and empty features
fall into one class regardless of their actual encodings. -/

/-- Counterexample to C6: an empty point and an empty polygon have
different canonical (WKB) encodings, so under the claim they are each alone
in their byte-identical equality class and no duplicate should be reported;
the code nevertheless reports one duplicate and lists both. -/
theorem C6_counterexample :
    emptyPointG.wkb ≠ emptyPolyG.wkb
    ∧ check_duplicates [some emptyPointG, some emptyPolyG] = (1, [0, 1]) := by
  constructor
  · decide
  · decide

/-- C6 (amended): over the *encoded* values (each non-null, non-empty
feature keyed by its canonical encoding, all null and empty features
sharing a single sentinel key), `duplicate_count` is the number of features
that are not the first occurrence within their equality class, and
`duplicate_indices` holds exactly the members of classes of size at least
two. -/
theorem C6_duplicate_classes (s : Store) (encs : List Enc)
    (henc : encodeAll s = some encs) (hlen : s.length ≠ 0) :
    (check_duplicates s).1 = specNonFirst encs
    ∧ ∀ i, (i ∈ (check_duplicates s).2
        ↔ i < s.length ∧ 2 ≤ encs.count (encs.getD i none)) := by
  have hcd : check_duplicates s
      = (dupCountFirst [] encs,
         (List.range s.length).filter
           fun j => decide (2 ≤ encs.count (encs.getD j none))) := by
    simp [check_duplicates, hlen, henc]
  rw [hcd]
  refine ⟨dupCountFirst_eq_specNonFirst encs, ?_⟩
  intro i
  simp [List.mem_filter, List.mem_range]

/-- Witness for the amended C6 on the spec's own example: a store of three
identical non-empty polygons has `duplicate_count = 2` (a class of size 3
contributes 2) and all three indices listed. -/
theorem C6_duplicate_classes_witness :
    (check_duplicates [some sqG, some sqG, some sqG]).1 = 2
    ∧ 0 ∈ (check_duplicates [some sqG, some sqG, some sqG]).2
    ∧ 1 ∈ (check_duplicates [some sqG, some sqG, some sqG]).2
    ∧ 2 ∈ (check_duplicates [some sqG, some sqG, some sqG]).2 := by
  have h := C6_duplicate_classes [some sqG, some sqG, some sqG]
    [some [1], some [1], some [1]] (by decide) (by decide)
  refine ⟨by rw [h.1]; decide, ?_, ?_, ?_⟩
  · exact (h.2 0).mpr (by decide)
  · exact (h.2 1).mpr (by decide)
  · exact (h.2 2).mpr (by decide)

/-! ## Claim C7 — per-feature fault tolerance of the duplicate detector.

The claim says a single encoding fault excludes only that feature.  In the
code the `try` block wraps the whole series encoding and comparison: one
faulting `.wkb` makes the `apply` raise, and the `except` branch replaces
the *entire* result with `{duplicate_count: 0, duplicate_indices: []}`. -/

/-- Counterexample to C7: two byte-identical squares plus one feature whose
encoding faults.  The claim says the two squares are still reported as
duplicates; the code abandons the whole scan and reports none — removing
the faulting feature, the very same squares are reported. -/
theorem C7_counterexample :
    check_duplicates [some sqG, some sqG, some faultG] = (0, [])
    ∧ check_duplicates [some sqG, some sqG] = (1, [0, 1]) := by
  constructor
  · decide
  · decide

/-- C7 (amended): if the canonical encoding faults for any feature, the
whole duplicate check is abandoned: it reports `duplicate_count = 0` and an
empty `duplicate_indices` (the surrounding analysis continues, but no other
feature's duplicates are reported). -/
theorem C7_fault_abandons_scan (s : Store) (h : encodeAll s = none) :
    check_duplicates s = (0, []) := by
  by_cases h0 : s.length = 0
  · simp [check_duplicates, h0]
  · simp [check_duplicates, h0, h]

/-- Witness for the amended C7: a concrete store with one faulting feature
next to two identical squares yields the abandoned result. -/
theorem C7_fault_abandons_scan_witness :
    check_duplicates [some faultG, some sqG2, some sqG2] = (0, []) :=
  C7_fault_abandons_scan [some faultG, some sqG2, some sqG2] (by decide)

/-! ## Validity check (`GeometryChecker.check_validity`)

The loop skips null and empty geometries, appends the index (and an
`explain_validity` reason) for each remaining geometry failing `is_valid`,
and sets `valid_count = len(gdf) - len(invalid_indices)`.
`explain_validity` is an external shapely function, passed as a
parameter. -/

/-- Result record of `check_validity`. -/
structure ValidityResult where
  validCount : Nat
  invalidCount : Nat
  invalidIndices : List Nat
  invalidReasons : List (Nat × String)
deriving DecidableEq

/-- The loop's per-feature test: counted invalid iff non-null, non-empty
and failing `is_valid`. -/
def isInvalidFeature : Option Geom → Bool
  | none => false
  | some g => !g.isEmpty && !g.isValid

/-- Embeds `GeometryChecker.check_validity`. -/
def check_validity (explainV : Geom → String) (s : Store) : ValidityResult :=
  let idxs := (List.range s.length).filter fun i => isInvalidFeature (s.getD i none)
  { validCount := s.length - idxs.length
    invalidCount := idxs.length
    invalidIndices := idxs
    invalidReasons := idxs.map fun i =>
      (i, match s.getD i none with
          | some g => explainV g
          | none => "") }

/-- C5: `invalid_count ≤ total_features`, `valid_count` is exactly
`total_features − invalid_count` (equivalently their sum is the total, so
the truncated subtraction is exact), and a feature is counted invalid iff
its geometry is non-null, non-empty and fails the validity predicate —
null and empty features are never counted invalid. -/
theorem C5_validity_counts (explainV : Geom → String) (s : Store) :
    (check_validity explainV s).invalidCount ≤ s.length
    ∧ (check_validity explainV s).validCount
        = s.length - (check_validity explainV s).invalidCount
    ∧ (check_validity explainV s).validCount
        + (check_validity explainV s).invalidCount = s.length
    ∧ ∀ i, (i ∈ (check_validity explainV s).invalidIndices
        ↔ ∃ g, s.getD i none = some g ∧ g.isEmpty = false ∧ g.isValid = false) := by
  have hle : ((List.range s.length).filter
      fun i => isInvalidFeature (s.getD i none)).length ≤ s.length := by
    calc ((List.range s.length).filter
        fun i => isInvalidFeature (s.getD i none)).length
        ≤ (List.range s.length).length := List.length_filter_le _ _
      _ = s.length := List.length_range s.length
  refine ⟨hle, rfl, by simp only [check_validity]; omega, ?_⟩
  intro i
  simp only [check_validity, List.mem_filter, List.mem_range]
  constructor
  · rintro ⟨hlt, hinv⟩
    cases hg : s.getD i none with
    | none => rw [hg] at hinv; simp [isInvalidFeature] at hinv
    | some g =>
      rw [hg] at hinv
      simp only [isInvalidFeature, Bool.and_eq_true, Bool.not_eq_true'] at hinv
      exact ⟨g, rfl, hinv.1, hinv.2⟩
  · rintro ⟨g, hg, hemp, hval⟩
    have hlt : i < s.length := by
      by_contra hge
      rw [List.getD_eq_default _ _ (by omega)] at hg
      exact Option.noConfusion hg
    refine ⟨hlt, ?_⟩
    rw [hg]
    simp [isInvalidFeature, hemp, hval]

/-- Witness for C5 on the `invalid_geometry_gdf` fixture shape (a bowtie,
a valid square, an empty polygon): only the bowtie's index is reported
invalid, and the counts balance. -/
theorem C5_validity_counts_witness :
    (check_validity (fun _ => "r") [some bowtieG, some sqG, some emptyPolyG]).invalidCount ≤ 3
    ∧ (0 ∈ (check_validity (fun _ => "r")
        [some bowtieG, some sqG, some emptyPolyG]).invalidIndices
      ↔ ∃ g, ([some bowtieG, some sqG, some emptyPolyG] : Store).getD 0 none = some g
          ∧ g.isEmpty = false ∧ g.isValid = false) := by
  have h := C5_validity_counts (fun _ => "r") [some bowtieG, some sqG, some emptyPolyG]
  exact ⟨h.1, h.2.2.2 0⟩

/-! ## Repair operation (`GeometryChecker.fix_invalid`)

`fix_invalid` maps `make_valid(g) if g is not None and not g.is_valid
else g` over a copy of the frame and returns the new frame; the original
is untouched (the embedding is pure, so only the result is modelled).
`make_valid` is an external shapely transform, passed as a parameter. -/

/-- The per-slot repair lambda of `fix_invalid`. -/
def fixSlot (mv : Geom → Geom) : Option Geom → Option Geom
  | none => none
  | some g => if !g.isValid then some (mv g) else some g

/-- Embeds `GeometryChecker.fix_invalid`: returns the repaired store. -/
def fix_invalid (mv : Geom → Geom) (s : Store) : Store :=
  s.map (fixSlot mv)

theorem fix_invalid_getD (mv : Geom → Geom) (s : Store) (i : Nat) :
    (fix_invalid mv s).getD i none = fixSlot mv (s.getD i none) := by
  induction s generalizing i with
  | nil => cases i <;> rfl
  | cons g rest ih =>
    cases i with
    | zero => rfl
    | succ n => simpa [fix_invalid] using ih n

/-- C8: under the shapely contract that `make_valid` returns a valid
geometry, `fix_invalid` keeps every geometry passing the validity predicate
value-unchanged, replaces every failing geometry by the make-valid result
(which then passes the predicate, in particular for a self-intersecting
bowtie), and is idempotent: a second application returns every geometry
unchanged. -/
theorem C8_fix_invalid_repair (mv : Geom → Geom) (s : Store)
    (hmv : ∀ g, (mv g).isValid = true) :
    (∀ i g, s.getD i none = some g →
      (g.isValid = true → (fix_invalid mv s).getD i none = some g)
      ∧ (g.isValid = false →
          (fix_invalid mv s).getD i none = some (mv g) ∧ (mv g).isValid = true))
    ∧ fix_invalid mv (fix_invalid mv s) = fix_invalid mv s := by
  constructor
  · intro i g hg
    constructor
    · intro hv
      rw [fix_invalid_getD, hg]
      simp [fixSlot, hv]
    · intro hv
      rw [fix_invalid_getD, hg]
      simp [fixSlot, hv, hmv g]
  · have hslot : ∀ x, fixSlot mv (fixSlot mv x) = fixSlot mv x := by
      intro x
      cases x with
      | none => rfl
      | some g =>
        by_cases hv : g.isValid
        · simp [fixSlot, hv]
        · simp [fixSlot, hv, hmv g]
    simp only [fix_invalid, List.map_map]
    apply List.map_congr_left
    intro x _
    exact hslot x

/-- Witness for C8: repairing a store holding a bowtie and a square with a
make-valid transform that returns the (valid) square: the bowtie slot is
replaced by a valid geometry, the already-valid square is unchanged, and a
second application changes nothing. -/
theorem C8_fix_invalid_repair_witness :
    ((fix_invalid (fun _ => sqG) [some bowtieG, some sqG]).getD 0 none = some sqG
      ∧ sqG.isValid = true)
    ∧ (fix_invalid (fun _ => sqG) [some bowtieG, some sqG]).getD 1 none = some sqG
    ∧ fix_invalid (fun _ => sqG) (fix_invalid (fun _ => sqG) [some bowtieG, some sqG])
        = fix_invalid (fun _ => sqG) [some bowtieG, some sqG] := by
  have h := C8_fix_invalid_repair (fun _ => sqG) [some bowtieG, some sqG] (fun _ => rfl)
  exact ⟨((h.1 0 bowtieG rfl).2 rfl), ((h.1 1 sqG rfl).1 rfl), h.2⟩

/-- C10: `fix_invalid` leaves null geometry slots untouched — whatever the
make-valid transform (so a null is never passed to it), a null slot is
still null in the returned store, and the store length is preserved.  The
embedding is a pure function of the input store, which is returned
unmodified to the caller (the Python code maps over a `copy()`). -/
theorem C10_fix_invalid_nulls (mv : Geom → Geom) (s : Store) (i : Nat)
    (h : s.getD i none = none) :
    (fix_invalid mv s).getD i none = none
    ∧ (fix_invalid mv s).length = s.length := by
  refine ⟨?_, by simp [fix_invalid]⟩
  rw [fix_invalid_getD, h]
  rfl

/-- Witness for C10: the null slot of a concrete store survives repair
under an arbitrary concrete transform. -/
theorem C10_fix_invalid_nulls_witness :
    (fix_invalid (fun _ => sqG2) [some bowtieG, none]).getD 1 none = none
    ∧ (fix_invalid (fun _ => sqG2) [some bowtieG, none]).length = 2 :=
  C10_fix_invalid_nulls (fun _ => sqG2) [some bowtieG, none] 1 (by decide)

/-! ## Sliver detection (`TopologyChecker.check_slivers`)

For each non-null, non-empty feature whose `geom_type` contains
`"Polygon"`, the code reads `area` and `length` (a fault skips the
feature), and only when `perimeter > 0` computes the Polsby–Popper
compactness `4 * np.pi * area / perimeter ** 2`, flagging the feature when
it is below the threshold (default `0.01`).  `np.pi` is the IEEE-754
double closest to π; we use its exact rational value and exact rational
arithmetic. -/

/-- The exact rational value of the float64 constant `np.pi`
(`884279719003555 / 2^48`). -/
def npPi : ℚ := 884279719003555 / 281474976710656

/-- The default `compactness_threshold` of `check_slivers`. -/
def defaultCompactnessThreshold : ℚ := 1 / 100

/-- The per-feature sliver test of `check_slivers`. -/
def sliverFlag (threshold : ℚ) : Option Geom → Bool
  | none => false
  | some g =>
    if g.isEmpty then false
    else if !(strContainsSub "Polygon" g.geomType) then false
    else
      match g.area, g.length with
      | some a, some p =>
        if 0 < p then decide ((4 * npPi * a) / (p ^ 2) < threshold) else false
      | _, _ => false

/-- Embeds `TopologyChecker.check_slivers`: returns
`(sliver_count, sliver_indices)`. -/
def check_slivers (threshold : ℚ) (s : Store) : Nat × List Nat :=
  let idxs := (List.range s.length).filter fun i => sliverFlag threshold (s.getD i none)
  (idxs.length, idxs)

/-- C9: a feature is flagged as a sliver iff it is a non-null, non-empty
polygonal feature whose area and perimeter reads succeed, whose perimeter
is strictly positive, and whose compactness `4·π·area / perimeter²` is
below the threshold.  Hence a zero-perimeter polygon never reaches the
division and is not flagged, and non-polygon, null and empty geometries are
never flagged. -/
theorem C9_sliver_guard (threshold : ℚ) (s : Store) (i : Nat) :
    i ∈ (check_slivers threshold s).2
    ↔ ∃ g a p, s.getD i none = some g
        ∧ g.isEmpty = false
        ∧ strContainsSub "Polygon" g.geomType = true
        ∧ g.area = some a
        ∧ g.length = some p
        ∧ 0 < p
        ∧ (4 * npPi * a) / (p ^ 2) < threshold := by
  simp only [check_slivers, List.mem_filter, List.mem_range]
  constructor
  · rintro ⟨hlt, hflag⟩
    cases hg : s.getD i none with
    | none => rw [hg] at hflag; simp [sliverFlag] at hflag
    | some g =>
      rw [hg] at hflag
      simp only [sliverFlag] at hflag
      by_cases hemp : g.isEmpty
      · simp [hemp] at hflag
      · simp only [hemp, Bool.false_eq_true, if_false] at hflag
        by_cases hpoly : strContainsSub "Polygon" g.geomType
        · simp only [hpoly, Bool.not_true, Bool.false_eq_true, if_false] at hflag
          cases ha : g.area with
          | none => rw [ha] at hflag; simp at hflag
          | some a =>
            cases hp : g.length with
            | none => rw [ha, hp] at hflag; simp at hflag
            | some p =>
              rw [ha, hp] at hflag
              simp only at hflag
              by_cases hppos : (0 : ℚ) < p
              · simp only [hppos, if_pos, decide_eq_true_eq] at hflag
                exact ⟨g, a, p, rfl, by simpa using hemp, hpoly, ha, hp, hppos, hflag⟩
              · simp [hppos] at hflag
        · simp [hpoly] at hflag
  · rintro ⟨g, a, p, hg, hemp, hpoly, ha, hp, hppos, hcomp⟩
    have hlt : i < s.length := by
      by_contra hge
      rw [List.getD_eq_default _ _ (by omega)] at hg
      exact Option.noConfusion hg
    refine ⟨hlt, ?_⟩
    rw [hg]
    simp [sliverFlag, hemp, hpoly, ha, hp, hppos, hcomp]

/-- Witness for C9: at the default threshold, the thin sliver (area
`1/100`, perimeter `20002/1000`) is flagged, exercising the positive
branch of the guard. -/
theorem C9_sliver_guard_witness :
    0 ∈ (check_slivers defaultCompactnessThreshold [some sliverG, some sqG]).2 :=
  (C9_sliver_guard defaultCompactnessThreshold [some sliverG, some sqG] 0).mpr
    ⟨sliverG, 1/100, 20002/1000, rfl, rfl, by decide, rfl, rfl, by norm_num,
      by norm_num [npPi, defaultCompactnessThreshold]⟩

/-! ## Pairwise overlap scanner (`TopologyChecker.check_self_overlaps`)

The scanner first computes `dom_type`: the lowercased `geom_type` of the
*first non-null* geometry (empty string if all are null), and returns
`{0, []}` unless `"polygon"` occurs in it.  Otherwise, for each feature
`i` with a non-null, non-empty, valid geometry it queries the spatial
index for the features whose geometry intersects it (geopandas
`sindex.query(geom, predicate="intersects")` returns exactly the
positions of the non-missing geometries satisfying the exact predicate),
skips candidates `j ≤ i` and candidates that are null, empty or invalid,
and records `(i, j)` when the exact intersection is non-empty with
positive area; a fault anywhere in the intersection test skips the pair.
The external `shapely` intersection is a parameter
`inter : Geom → Geom → Option Geom`, `none` modelling a raised exception;
the `intersects` predicate holds iff the intersection is non-empty. -/

/-- Python `str.lower()` (character-wise lowercasing). -/
def strLower (s : String) : String := ⟨s.data.map Char.toLower⟩

/-- The `dom_type` computed at the top of `check_self_overlaps`: the
lowercased type of the first non-null geometry, `""` if none. -/
def first_nonnull_type : Store → String
  | [] => ""
  | none :: rest => first_nonnull_type rest
  | some g :: _ => strLower g.geomType

/-- The shapely `intersects` predicate, derived from the intersection
operation: true iff the intersection is defined and non-empty. -/
def intersectsB (inter : Geom → Geom → Option Geom) (g h : Geom) : Bool :=
  match inter g h with
  | none => false
  | some r => !r.isEmpty

/-- Embeds `sindex.query(geom, predicate="intersects")`: the positions of the
non-null geometries intersecting `g`, in position order. -/
def sindexQuery (inter : Geom → Geom → Option Geom) (s : Store) (g : Geom) : List Nat :=
  (List.range s.length).filter fun j =>
    match s.getD j none with
    | none => false
    | some h => intersectsB inter g h

/-- The recorded-pair test of the inner loop:
`not intersection.is_empty and intersection.area > 0`, with any fault
(in the intersection call or the attribute reads) giving `false`. -/
def pairTest (inter : Geom → Geom → Option Geom) (g h : Geom) : Bool :=
  match inter g h with
  | none => false
  | some r =>
    if r.isEmpty then false
    else
      match r.area with
      | none => false
      | some a => decide (0 < a)

/-- The double loop of `check_self_overlaps`, producing `overlap_pairs` in
loop order. -/
def scanPairs (inter : Geom → Geom → Option Geom) (s : Store) : List (Nat × Nat) :=
  (List.range s.length).flatMap fun i =>
    match s.getD i none with
    | none => []
    | some g =>
      if g.isEmpty || !g.isValid then []
      else
        (sindexQuery inter s g).filterMap fun j =>
          if j ≤ i then none
          else
            match s.getD j none with
            | none => none
            | some h =>
              if h.isEmpty || !h.isValid then none
              else if pairTest inter g h then some (i, j) else none

/-- Embeds `TopologyChecker.check_self_overlaps`: returns
`(self_overlap_count, self_overlap_pairs)`. -/
def check_self_overlaps (inter : Geom → Geom → Option Geom) (s : Store) :
    Nat × List (Nat × Nat) :=
  if !(strContainsSub "polygon" (first_nonnull_type s)) then (0, [])
  else ((scanPairs inter s).length, scanPairs inter s)

/-! ## Dominant geometry type (`SpatialAnalyzer._dominant_geometry_type`)

Counts the `geom_type` of every non-null geometry into an insertion-ordered
dict, then takes `max(types, key=types.get)` — the first key attaining the
maximal count. -/

/-- Increment the count of `t` in an insertion-ordered association list. -/
def bumpType (t : String) : List (String × Nat) → List (String × Nat)
  | [] => [(t, 1)]
  | (k, v) :: rest => if k = t then (k, v + 1) :: rest else (k, v) :: bumpType t rest

/-- The insertion-ordered type-count dict over non-null geometries. -/
def typeCounts (s : Store) : List (String × Nat) :=
  s.foldl
    (fun acc g =>
      match g with
      | none => acc
      | some h => bumpType h.geomType acc)
    []

/-- Python `max(types, key=types.get)`: the first key with the maximal
count (a later key replaces the current one only if strictly greater). -/
def maxByCount : String → Nat → List (String × Nat) → String
  | k, _, [] => k
  | k, v, (k2, v2) :: rest => if v2 > v then maxByCount k2 v2 rest else maxByCount k v rest

/-- Embeds `SpatialAnalyzer._dominant_geometry_type`. -/
def dominant_geometry_type (s : Store) : String :=
  if s.length = 0 then "Unknown"
  else
    match typeCounts s with
    | [] => "Unknown"
    | (k, v) :: rest => maxByCount k v rest

/-! ## Sample data for the overlap claims -/

/-- A valid polygon that overlaps `polyBG` under `interOv`. -/
def polyAG : Geom := ⟨"Polygon", false, true, some [6], some 4, some 8⟩

/-- A valid polygon that overlaps `polyAG` under `interOv`. -/
def polyBG : Geom := ⟨"Polygon", false, true, some [7], some 4, some 8⟩

/-- The overlap region of `polyAG` and `polyBG`: non-empty, area 1. -/
def ovG : Geom := ⟨"Polygon", false, true, some [8], some 1, some 4⟩

/-- An empty intersection result. -/
def emptyInterG : Geom := ⟨"GeometryCollection", true, true, some [9], some 0, some 0⟩

/-- A concrete intersection oracle: `polyAG` and `polyBG` overlap with
positive area; every other pair of geometries has an empty intersection. -/
def interOv : Geom → Geom → Option Geom := fun g h =>
  if (g = polyAG ∧ h = polyBG) ∨ (g = polyBG ∧ h = polyAG) then some ovG
  else some emptyInterG

/-- A store whose first non-null geometry is a point but whose dominant
geometry type is `"Polygon"` (one point, two polygons). -/
def exC1 : Store := [some pointG, some polyAG, some polyBG]

/-! ## Claim C1 — which stores the overlap scan applies to.

The claim says the scan applies exactly when the *dominant* geometry type
of the store is polygonal.  The code instead tests the type of the *first
non-null* geometry. -/

/-- Counterexample to C1: in `exC1` the dominant geometry type is
`"Polygon"` (2 polygons vs 1 point) and the store is far below the
ceiling, yet `check_self_overlaps` returns `{0, []}` immediately — the
pairwise scan, which would record the overlapping pair `(1, 2)`, is not
performed, because the first non-null geometry is a point. -/
theorem C1_counterexample :
    dominant_geometry_type exC1 = "Polygon"
    ∧ strContainsSub "polygon" (strLower (dominant_geometry_type exC1)) = true
    ∧ exC1.length ≤ 10000
    ∧ check_self_overlaps interOv exC1 = (0, [])
    ∧ scanPairs interOv exC1 = [(1, 2)] := by
  refine ⟨by decide, by decide, by decide, by decide, by decide⟩

/-- C1 (amended): the scan applies only when the lowercased geometry type
of the *first non-null* geometry of the store contains `"polygon"`;
otherwise it returns an overlap count of 0 and an empty pair list
immediately, and when it does contain `"polygon"` the pairwise scan is
performed and its pairs are returned. -/
theorem C1_first_geometry_gate (inter : Geom → Geom → Option Geom) (s : Store) :
    (strContainsSub "polygon" (first_nonnull_type s) = false →
      check_self_overlaps inter s = (0, []))
    ∧ (strContainsSub "polygon" (first_nonnull_type s) = true →
      check_self_overlaps inter s
        = ((scanPairs inter s).length, scanPairs inter s)) := by
  constructor
  · intro h
    simp [check_self_overlaps, h]
  · intro h
    simp [check_self_overlaps, h]

/-- Witness for the amended C1: a line-free point store is gated out while
a polygon-first store runs the scan. -/
theorem C1_first_geometry_gate_witness :
    check_self_overlaps interOv [some pointG, some polyAG, some polyBG] = (0, [])
    ∧ check_self_overlaps interOv [some polyAG, some polyBG]
        = ((scanPairs interOv [some polyAG, some polyBG]).length,
            scanPairs interOv [some polyAG, some polyBG]) :=
  ⟨(C1_first_geometry_gate interOv [some pointG, some polyAG, some polyBG]).1 (by decide),
    (C1_first_geometry_gate interOv [some polyAG, some polyBG]).2 (by decide)⟩

/-! ## Claim C4 — characterization of recorded overlap pairs. -/

theorem mem_scanPairs (inter : Geom → Geom → Option Geom) (s : Store) (i j : Nat) :
    (i, j) ∈ scanPairs inter s
    ↔ i < j ∧ ∃ gi gj r a,
        s.getD i none = some gi ∧ gi.isEmpty = false ∧ gi.isValid = true
        ∧ s.getD j none = some gj ∧ gj.isEmpty = false ∧ gj.isValid = true
        ∧ inter gi gj = some r ∧ r.isEmpty = false ∧ r.area = some a ∧ 0 < a := by
  constructor
  · intro hmem
    simp only [scanPairs, List.mem_flatMap, List.mem_range] at hmem
    obtain ⟨i2, hi2lt, hbody⟩ := hmem
    cases hgi : s.getD i2 none with
    | none => simp only [hgi] at hbody; simp at hbody
    | some g =>
      simp only [hgi] at hbody
      cases hcond : (g.isEmpty || !g.isValid) with
      | true => simp only [hcond] at hbody; simp at hbody
      | false =>
        simp only [hcond, Bool.false_eq_true, if_false, List.mem_filterMap] at hbody
        obtain ⟨j2, hj2q, hf⟩ := hbody
        by_cases hle : j2 ≤ i2
        · rw [if_pos hle] at hf; exact Option.noConfusion hf
        · rw [if_neg hle] at hf
          cases hgj : s.getD j2 none with
          | none => simp only [hgj] at hf; exact Option.noConfusion hf
          | some h2 =>
            simp only [hgj] at hf
            cases hcond2 : (h2.isEmpty || !h2.isValid) with
            | true => simp only [hcond2] at hf; simp at hf
            | false =>
              simp only [hcond2, Bool.false_eq_true, if_false] at hf
              cases hpt : pairTest inter g h2 with
              | false => simp only [hpt] at hf; simp at hf
              | true =>
                simp only [hpt, if_true, Option.some_inj, Prod.mk.injEq] at hf
                obtain ⟨hi2, hj2⟩ := hf
                subst hi2
                subst hj2
                simp only [Bool.or_eq_false_iff] at hcond hcond2
                simp only [pairTest] at hpt
                cases hint : inter g h2 with
                | none => simp only [hint] at hpt; exact Bool.noConfusion hpt
                | some r =>
                  simp only [hint] at hpt
                  cases hre : r.isEmpty with
                  | true => simp only [hre, if_true] at hpt; simp at hpt
                  | false =>
                    simp only [hre, Bool.false_eq_true, if_false] at hpt
                    cases hra : r.area with
                    | none => simp only [hra] at hpt; exact Bool.noConfusion hpt
                    | some a =>
                      simp only [hra, decide_eq_true_eq] at hpt
                      exact ⟨by omega,
                        g, h2, r, a, hgi, hcond.1, by simpa using hcond.2, hgj,
                        hcond2.1, by simpa using hcond2.2, hint, hre, hra, hpt⟩
  · rintro ⟨hij, gi, gj, r, a, hgi, hgiE, hgiV, hgj, hgjE, hgjV, hint, hrE, hra, hapos⟩
    have hilt : i < s.length := by
      by_contra hge
      rw [List.getD_eq_default _ _ (by omega)] at hgi
      exact Option.noConfusion hgi
    have hjlt : j < s.length := by
      by_contra hge
      rw [List.getD_eq_default _ _ (by omega)] at hgj
      exact Option.noConfusion hgj
    simp only [scanPairs, List.mem_flatMap, List.mem_range]
    refine ⟨i, hilt, ?_⟩
    have hcond : (gi.isEmpty || !gi.isValid) = false := by
      simp [hgiE, hgiV]
    simp only [hgi, hcond, Bool.false_eq_true, if_false, List.mem_filterMap]
    refine ⟨j, ?_, ?_⟩
    · simp only [sindexQuery, List.mem_filter, List.mem_range]
      refine ⟨hjlt, ?_⟩
      simp only [hgj, intersectsB, hint, hrE]
      rfl
    · rw [if_neg (by omega)]
      have hcond2 : (gj.isEmpty || !gj.isValid) = false := by
        simp [hgjE, hgjV]
      have hpt : pairTest inter gi gj = true := by
        simp only [pairTest, hint, hrE, Bool.false_eq_true, if_false, hra,
          decide_eq_true_eq]
        exact hapos
      simp only [hgj, hcond2, Bool.false_eq_true, if_false, hpt, if_true]

/-- C4: when the overlap scan runs (the store's first non-null geometry is
polygonal), a pair `(i, j)` is recorded iff `i < j` (each unordered pair
at most once, never a self-pair), both geometries are non-null, non-empty
and valid, and their exact intersection is defined (no fault), non-empty
and of strictly positive area — so touching pairs (area 0) and faulting
pairs are not recorded while the scan continues. -/
theorem C4_overlap_pair_condition (inter : Geom → Geom → Option Geom) (s : Store)
    (i j : Nat) (hpoly : strContainsSub "polygon" (first_nonnull_type s) = true) :
    (i, j) ∈ (check_self_overlaps inter s).2
    ↔ i < j ∧ ∃ gi gj r a,
        s.getD i none = some gi ∧ gi.isEmpty = false ∧ gi.isValid = true
        ∧ s.getD j none = some gj ∧ gj.isEmpty = false ∧ gj.isValid = true
        ∧ inter gi gj = some r ∧ r.isEmpty = false ∧ r.area = some a ∧ 0 < a := by
  rw [show (check_self_overlaps inter s).2 = scanPairs inter s by
    simp [check_self_overlaps, hpoly]]
  exact mem_scanPairs inter s i j

/-- Witness for C4: on a two-polygon store with a positive-area overlap,
the pair `(0, 1)` is recorded. -/
theorem C4_overlap_pair_condition_witness :
    (0, 1) ∈ (check_self_overlaps interOv [some polyAG, some polyBG]).2 :=
  (C4_overlap_pair_condition interOv [some polyAG, some polyBG] 0 1 (by decide)).mpr
    ⟨by decide, polyAG, polyBG, ovG, 1, rfl, rfl, rfl, rfl, rfl, rfl, by decide, rfl, rfl,
      by norm_num⟩

/-! ## Claim C3 — ceiling behavior of `TopologyChecker.check_all`.

`check_all` merges the auxiliary checks and then either runs
`check_self_overlaps` (when `len(gdf) <= max_features`) or stores the
sentinel `self_overlap_count = -1` with `self_overlap_skipped = True`.
We model the sliver and overlap parts of the merged record (the ring and
precision checks populate unrelated keys).  When the scan is skipped the
`self_overlap_pairs` key is absent in Python; the model renders it as an
empty list, with the `skipped` flag carrying the distinction. -/

/-- The overlap-related part of the merged record of
`TopologyChecker.check_all`. -/
structure CheckAllResult where
  sliverCount : Nat
  sliverIndices : List Nat
  selfOverlapCount : Int
  selfOverlapPairs : List (Nat × Nat)
  selfOverlapSkipped : Bool
deriving DecidableEq

/-- The default `max_features` ceiling of `check_all`. -/
def defaultMaxFeatures : Nat := 10000

/-- Embeds `TopologyChecker.check_all` (sliver and overlap parts). -/
def check_all (inter : Geom → Geom → Option Geom) (threshold : ℚ) (s : Store)
    (maxFeatures : Nat) : CheckAllResult :=
  let sl := check_slivers threshold s
  if s.length ≤ maxFeatures then
    let r := check_self_overlaps inter s
    ⟨sl.1, sl.2, (r.1 : Int), r.2, false⟩
  else
    ⟨sl.1, sl.2, -1, [], true⟩

/-- C3: if the store size exceeds the ceiling, `check_all` skips the
pairwise overlap scan and reports the sentinel `overlap_count = -1` with
`skipped = true`; otherwise it runs `check_self_overlaps`, reports its
(non-negative, hence non-sentinel) count and no skip flag. -/
theorem C3_ceiling_sentinel (inter : Geom → Geom → Option Geom) (threshold : ℚ)
    (s : Store) (maxFeatures : Nat) :
    (maxFeatures < s.length →
      (check_all inter threshold s maxFeatures).selfOverlapCount = -1
      ∧ (check_all inter threshold s maxFeatures).selfOverlapSkipped = true)
    ∧ (s.length ≤ maxFeatures →
      (check_all inter threshold s maxFeatures).selfOverlapCount
          = ((check_self_overlaps inter s).1 : Int)
      ∧ (check_all inter threshold s maxFeatures).selfOverlapPairs
          = (check_self_overlaps inter s).2
      ∧ 0 ≤ (check_all inter threshold s maxFeatures).selfOverlapCount
      ∧ (check_all inter threshold s maxFeatures).selfOverlapCount ≠ -1
      ∧ (check_all inter threshold s maxFeatures).selfOverlapSkipped = false) := by
  constructor
  · intro h
    have hgt : ¬ s.length ≤ maxFeatures := by omega
    simp [check_all, hgt]
  · intro h
    have hc : check_all inter threshold s maxFeatures
        = ⟨(check_slivers threshold s).1, (check_slivers threshold s).2,
            ((check_self_overlaps inter s).1 : Int), (check_self_overlaps inter s).2,
            false⟩ := by
      simp [check_all, h]
    rw [hc]
    refine ⟨rfl, rfl, by positivity, ?_, rfl⟩
    show ((check_self_overlaps inter s).1 : Int) ≠ -1
    omega

/-- Witness for C3, following the spec example: a store of five polygons
with `max_features = 2` yields the sentinel and the skip flag, while the
default ceiling runs the scan with a non-negative count. -/
theorem C3_ceiling_sentinel_witness :
    ((check_all interOv defaultCompactnessThreshold
        [some sqG, some sqG, some sqG, some sqG, some sqG] 2).selfOverlapCount = -1
      ∧ (check_all interOv defaultCompactnessThreshold
          [some sqG, some sqG, some sqG, some sqG, some sqG] 2).selfOverlapSkipped = true)
    ∧ ((check_all interOv defaultCompactnessThreshold
        [some sqG, some sqG, some sqG, some sqG, some sqG]
        defaultMaxFeatures).selfOverlapSkipped = false
      ∧ 0 ≤ (check_all interOv defaultCompactnessThreshold
          [some sqG, some sqG, some sqG, some sqG, some sqG]
          defaultMaxFeatures).selfOverlapCount) := by
  have h1 := (C3_ceiling_sentinel interOv defaultCompactnessThreshold
    [some sqG, some sqG, some sqG, some sqG, some sqG] 2).1 (by decide)
  have h2 := (C3_ceiling_sentinel interOv defaultCompactnessThreshold
    [some sqG, some sqG, some sqG, some sqG, some sqG] defaultMaxFeatures).2 (by decide)
  exact ⟨⟨h1.1, h1.2⟩, ⟨h2.2.2.2.2, h2.2.2.1⟩⟩

end GeoQA
